import Mathlib

/-!
Verification of the Smart-Grid-Analytics results grapher.

Shallow embedding of the data pipeline of `grapher.py` (and the constant
`DATE_FORMAT` of `param.py`): CSV row parsing, timestamp conversion,
filename checking, range filtering, and the anomaly banding loop.

Python floats are modelled as exact rationals; Python datetimes as either an
epoch rational or a calendar tuple; fallible code returns an `Option` or
pairs its result with an `Option` error value (Python mutates state in place,
so a failing operation is modelled as the state reached at the failure
together with the error).
-/

namespace Grapher

/-- Severity tier of an anomaly bucket.  The source draws a colored span per
tier: `red` is `high`, `orange` is `medium`, `green` is `low`; tier `none`
draws nothing. -/
inductive Tier
  | none
  | low
  | medium
  | high
deriving DecidableEq

/-- A colored span record handed to `ResultsGraph.colorSpan`:
(start time, duration in minutes, severity tier). -/
abbrev Span : Type := ℚ × ℕ × Tier

/-- The threshold chain of `ResultsWindow.showAnomalies` (grapher.py:452-461):
`level1 = 0`, `level2 = dur / 3.0`, `level3 = level2 * 2`; a bucket sum is
`high` above `level3`, `medium` above `level2`, `low` above `level1`, else
`none`.  Float division `dur / 3.0` is modelled as exact rational division. -/
def classify (dur : ℕ) (s : ℚ) : Tier :=
  let level1 : ℚ := 0
  let level2 : ℚ := (dur : ℚ) / 3
  let level3 : ℚ := level2 * 2
  if s > level3 then Tier.high
  else if s > level2 then Tier.medium
  else if s > level1 then Tier.low
  else Tier.none

/-- The `for i in self.anomalies` loop of `ResultsWindow.showAnomalies`
(grapher.py:456-465).  State: the remaining anomaly values, the running
index `count`, the running bucket sum `anomaly_count`, the current span
`start`, and the spans drawn so far (appended in drawing order).  The Python
accesses `self.times[count]`; this is modelled totally with `getD` (the
claims below are about the in-bounds regime where the loaded sequences have
matching lengths). -/
def showAnomaliesGo (dur : ℕ) (times : List ℚ) :
    List ℚ → ℕ → ℚ → ℚ → List Span → List Span
  | [], _, _, _, acc => acc
  | a :: rest, count, anomaly_count, start, acc =>
    let anomaly_count := anomaly_count + a
    if (count + 1) % dur = 0 then
      let tier := classify dur anomaly_count
      let acc := if tier = Tier.none then acc else acc ++ [(start, dur, tier)]
      showAnomaliesGo dur times rest (count + 1) 0 (times.getD count 0) acc
    else
      showAnomaliesGo dur times rest (count + 1) anomaly_count start acc

/-- `ResultsWindow.showAnomalies` (grapher.py:446-465) as a function from the
loaded anomaly and time sequences and the previously drawn spans to the spans
on the canvas afterwards.  When `dur > 0` the existing spans are cleared
(`clearSpans`, line 455) and the loop redraws from scratch; otherwise the
body does nothing and the previous spans remain. -/
def showAnomalies (dur : ℕ) (anomalies times : List ℚ) (prev : List Span) :
    List Span :=
  if 0 < dur then showAnomaliesGo dur times anomalies 0 0 (times.getD 0 0) []
  else prev

/-- Sum of the anomaly flags in the k-th complete bucket of `d` samples. -/
def bucketSum (d : ℕ) (anomalies : List ℚ) (k : ℕ) : ℚ :=
  ((anomalies.drop (k * d)).take d).sum

/-- The start time the loop records for the k-th bucket (0-indexed): the
first bucket uses `times[0]`, every later bucket uses `times[k*d - 1]`, the
time of the last sample of the previous bucket. -/
def bucketStart (times : List ℚ) (d k : ℕ) : ℚ :=
  if k = 0 then times.getD 0 0 else times.getD (k * d - 1) 0

/-- Specification-side restatement of the banding loop, per bucket: one span
for every complete bucket whose tier is not `none`, tiers given by
`classify` on the bucket sums, starts given by `bucketStart`. -/
def spansSpec (d : ℕ) (anomalies times : List ℚ) : List Span :=
  (List.range (anomalies.length / d)).filterMap (fun k =>
    let tier := classify d (bucketSum d anomalies k)
    if tier = Tier.none then none
    else some (bucketStart times d k, d, tier))

/-- The range-filtering step of `ResultsWindow.updateGraph`
(grapher.py:406-411): keep the timestamps `i` with
`start_date <= i < end_date`, then slice `target` and `predict` between the
positions (Python `list.index`) of the first and last kept timestamp.
When no timestamp is in range, `new_time[0]` raises `IndexError`:
modelled as `none`. -/
def rangeFilter (times target predict : List ℚ) (start_date end_date : ℚ) :
    Option (List ℚ × List ℚ × List ℚ) :=
  match times.filter (fun i => decide (start_date ≤ i) && decide (i < end_date)) with
  | [] => none
  | t0 :: tl =>
    let new_time := t0 :: tl
    let i0 := times.indexOf t0
    let i1 := times.indexOf (new_time.getLast (List.cons_ne_nil t0 tl))
    some (new_time, (target.take (i1 + 1)).drop i0, (predict.take (i1 + 1)).drop i0)

/-- The state of `ResultsWindow` that `updateGraph` reads: the loaded
sequences, the selected date range, and the anomaly controls.  The smoothing
controls are omitted: they only affect the line plots, never the spans. -/
structure GrapherState where
  times : List ℚ
  target : List ℚ
  predict : List ℚ
  anomalies : List ℚ
  start_date : ℚ
  end_date : ℚ
  anomaly_checked : Bool
  anomaly_dur : ℕ
deriving DecidableEq

/-- The effect of `ResultsWindow.updateGraph` (grapher.py:402-431) on the
canvas color spans, given the spans currently drawn.  The range filter runs
first (line 408-411); if it raises, the redraw aborts (`none`) and
`showAnomalies` is never reached.  Otherwise the anomaly checkbox decides
between `showAnomalies` (line 429) and `clearSpans` (line 431). -/
def updateGraphSpans (st : GrapherState) (prev : List Span) :
    Option (List Span) :=
  (rangeFilter st.times st.target st.predict st.start_date st.end_date).bind
    (fun _ =>
      if st.anomaly_checked then
        some (showAnomalies st.anomaly_dur st.anomalies st.times prev)
      else some [])

/-- Python `filename[-4:]`: the last four characters of the string (the
whole string when it is shorter than four characters). -/
def pySuffix4 (s : String) : String :=
  String.mk (s.data.drop (s.data.length - 4))

/-- `ResultsWindow.checkFilename` (grapher.py:318-325): returns whether the
filename is acceptable, together with the status-bar message shown when it
is not. -/
def checkFilename (filename : String) : Bool × Option String :=
  if filename = "" then (false, some "Error: no file name given")
  else if pySuffix4 filename ≠ ".csv" then
    (false, some "Error: file must be .csv format")
  else (true, none)

/-- The guard structure of `ResultsWindow.loadFile` (grapher.py:345-347):
`open` (the only file I/O) is attempted exactly when `checkFilename`
returns true. -/
def loadFileWouldOpen (filename : String) : Bool :=
  (checkFilename filename).1

/-- Fold the digit characters of a numeral into a natural number. -/
def digitsToNat (cs : List Char) : ℕ :=
  cs.foldl (fun n c => 10 * n + (c.toNat - 48)) 0

/-- The parts of a finite decimal float literal: sign, integer-part digits,
fractional-part digits with their count, and signed decimal exponent. -/
structure FloatRep where
  negative : Bool
  ipart : ℕ
  fpart : ℕ
  flen : ℕ
  exp : ℤ
deriving DecidableEq

/-- The lexical phase of the Python builtin `float` on a string, for finite
decimal literals: optional surrounding whitespace, optional sign, digits
with an optional decimal point (at least one digit overall), optional
exponent part, nothing else.  The special forms `inf` and `nan` are not
modelled (no claim involves them).  `none` models the `ValueError` the
builtin raises on any other string. -/
def scanFloat (s : String) : Option FloatRep :=
  let cs := ((s.data.dropWhile Char.isWhitespace).reverse.dropWhile
    Char.isWhitespace).reverse
  let neg := cs.headD ' ' = '-'
  let cs1 := if cs.headD ' ' = '+' ∨ cs.headD ' ' = '-' then cs.tail else cs
  let ipart := cs1.takeWhile Char.isDigit
  let afterInt := cs1.dropWhile Char.isDigit
  let hasDot := afterInt.headD ' ' = '.'
  let fpart := if hasDot then afterInt.tail.takeWhile Char.isDigit else []
  let afterFrac :=
    if hasDot then afterInt.tail.dropWhile Char.isDigit else afterInt
  if ipart.isEmpty ∧ fpart.isEmpty then none
  else if afterFrac.isEmpty then
    some ⟨neg, digitsToNat ipart, digitsToNat fpart, fpart.length, 0⟩
  else if afterFrac.headD ' ' = 'e' ∨ afterFrac.headD ' ' = 'E' then
    let t := afterFrac.tail
    let eneg := t.headD ' ' = '-'
    let t2 := if t.headD ' ' = '+' ∨ t.headD ' ' = '-' then t.tail else t
    let edig := t2.takeWhile Char.isDigit
    let erest := t2.dropWhile Char.isDigit
    if edig.isEmpty ∨ ¬ erest.isEmpty then none
    else some ⟨neg, digitsToNat ipart, digitsToNat fpart, fpart.length,
      (if eneg then -1 else 1) * (digitsToNat edig : ℤ)⟩
  else none

/-- The exact rational value of a decimal float literal.  The Python float
is the binary rounding of this value; the claims only involve values where
rounding does not change any compared outcome, so the exact value is used. -/
def FloatRep.toRat (r : FloatRep) : ℚ :=
  (if r.negative then -1 else 1) *
    ((r.ipart : ℚ) + (r.fpart : ℚ) / 10 ^ r.flen) * (10 : ℚ) ^ r.exp

/-- Python builtin `float` applied to a string: scan the literal and take
its (exact) value. -/
def parseFloat (s : String) : Option ℚ :=
  (scanFloat s).map FloatRep.toRat

/-- A parsed calendar date-time (what `datetime.strptime` produces). -/
structure Calendar where
  year : ℕ
  month : ℕ
  day : ℕ
  hour : ℕ
  minute : ℕ
  second : ℕ
deriving DecidableEq

/-- Gregorian leap-year rule, as used by `datetime`. -/
def isLeapYear (y : ℕ) : Bool :=
  (y % 4 = 0 && y % 100 ≠ 0) || y % 400 = 0

/-- Number of days in a month, as validated by the `datetime` constructor. -/
def daysInMonth (y m : ℕ) : ℕ :=
  if m = 2 then (if isLeapYear y then 29 else 28)
  else if m = 4 ∨ m = 6 ∨ m = 9 ∨ m = 11 then 30
  else 31

/-- Read one or two digits (two preferred, falling back to one), requiring
the value to lie in `[lo, hi]`; models the one-or-two-digit alternations of
the CPython `_strptime` regular expressions. -/
def parseNum2 (cs : List Char) (lo hi : ℕ) : Option (ℕ × List Char) :=
  match cs with
  | [] => none
  | c1 :: rest1 =>
    if c1.isDigit then
      let v1 := c1.toNat - 48
      match rest1 with
      | [] => if lo ≤ v1 ∧ v1 ≤ hi then some (v1, []) else none
      | c2 :: rest2 =>
        if c2.isDigit then
          let v2 := v1 * 10 + (c2.toNat - 48)
          if lo ≤ v2 ∧ v2 ≤ hi then some (v2, rest2)
          else if lo ≤ v1 ∧ v1 ≤ hi then some (v1, rest1)
          else none
        else if lo ≤ v1 ∧ v1 ≤ hi then some (v1, rest1) else none
    else none

/-- Read exactly four digits (the `%Y` pattern of `_strptime`). -/
def parseYear4 (cs : List Char) : Option (ℕ × List Char) :=
  match cs with
  | c1 :: c2 :: c3 :: c4 :: rest =>
    if c1.isDigit && c2.isDigit && c3.isDigit && c4.isDigit then
      some ((c1.toNat - 48) * 1000 + (c2.toNat - 48) * 100 +
        (c3.toNat - 48) * 10 + (c4.toNat - 48), rest)
    else none
  | _ => none

/-- Expect one literal character. -/
def expectChar (c : Char) : List Char → Option (List Char)
  | [] => none
  | x :: rest => if x = c then some rest else none

/-- Expect one or more whitespace characters (format whitespace matches
one-or-more in `_strptime`). -/
def skipWs1 : List Char → Option (List Char)
  | [] => none
  | x :: rest =>
    if x.isWhitespace then some (rest.dropWhile Char.isWhitespace) else none

/-- `dt.datetime.strptime(t, DATE_FORMAT)` with
`DATE_FORMAT = %Y-%m-%d %H:%M:%S` from param.py:13, that is the fixed
textual pattern `YYYY-MM-DD HH:MM:SS`: a four-digit year, then literal
separators around one-or-two-digit month, day, hour, minute and second
fields, the whole string consumed, followed by the range validation the
`datetime` constructor performs (year at least 1, day valid for the month,
second at most 59).  `none` models the `ValueError` on failure. -/
def parseStrptime (s : String) : Option Calendar := do
  let (y, r1) ← parseYear4 s.data
  let r2 ← expectChar '-' r1
  let (mo, r3) ← parseNum2 r2 1 12
  let r4 ← expectChar '-' r3
  let (da, r5) ← parseNum2 r4 1 31
  let r6 ← skipWs1 r5
  let (ho, r7) ← parseNum2 r6 0 23
  let r8 ← expectChar ':' r7
  let (mi, r9) ← parseNum2 r8 0 59
  let r10 ← expectChar ':' r9
  let (se, r11) ← parseNum2 r10 0 61
  if r11.isEmpty ∧ 1 ≤ y ∧ da ≤ daysInMonth y mo ∧ se ≤ 59 then
    some ⟨y, mo, da, ho, mi, se⟩
  else none

/-- A Python datetime value: built by `datetime.fromtimestamp` from a float
epoch, or by `datetime.strptime` from a calendar string. -/
inductive PyDateTime
  | fromEpoch (t : ℚ)
  | fromCalendar (c : Calendar)
deriving DecidableEq

/-- A value held in `self.times`: the raw first-column string as appended by
the reader loop (grapher.py:361), or the converted datetime
(grapher.py:370-376). -/
inductive TimeVal
  | raw (s : String)
  | dt (t : PyDateTime)
deriving DecidableEq

/-- The raw string of a `TimeVal` (every entry is `raw` at conversion time;
the `dt` case is unreachable there). -/
def rawStr : TimeVal → String
  | TimeVal.raw s => s
  | TimeVal.dt _ => ""

/-- The error kinds of the loader, named as in the specification:
`parseError` is the `ValueError` of `float()` on a required field,
`formatError` the `ValueError` when both timestamp conversions fail,
`indexError` a missing required column. -/
inductive LoadError
  | invalidFilename
  | fileNotFound
  | parseError
  | formatError
  | indexError
deriving DecidableEq

/-- The four loaded sequences held on the `ResultsWindow` object. -/
structure DataState where
  times : List TimeVal
  target : List ℚ
  predict : List ℚ
  anomalies : List ℚ
deriving DecidableEq

/-- One iteration of the reader loop of `ResultsWindow.loadFile`
(grapher.py:360-367): append the raw timestamp, then `float(row[1])`,
`float(row[2])`, and `float(row[3])` guarded only against a missing fourth
column (`except IndexError: pass`).  Python mutates the object in place, so
the result pairs the state reached with the error, if any. -/
def loadRow (st : DataState) (row : List String) : DataState × Option LoadError :=
  match row.get? 0 with
  | Option.none => (st, some LoadError.indexError)
  | Option.some c0 =>
    let st1 := { st with times := st.times ++ [TimeVal.raw c0] }
    match row.get? 1 with
    | Option.none => (st1, some LoadError.indexError)
    | Option.some c1 =>
      match parseFloat c1 with
      | Option.none => (st1, some LoadError.parseError)
      | Option.some v1 =>
        let st2 := { st1 with target := st1.target ++ [v1] }
        match row.get? 2 with
        | Option.none => (st2, some LoadError.indexError)
        | Option.some c2 =>
          match parseFloat c2 with
          | Option.none => (st2, some LoadError.parseError)
          | Option.some v2 =>
            let st3 := { st2 with predict := st2.predict ++ [v2] }
            match row.get? 3 with
            | Option.none => (st3, none)
            | Option.some c3 =>
              match parseFloat c3 with
              | Option.none => (st3, some LoadError.parseError)
              | Option.some v3 =>
                ({ st3 with anomalies := st3.anomalies ++ [v3] }, none)

/-- The reader loop over all data rows, stopping at the first error. -/
def loadRows (st : DataState) : List (List String) → DataState × Option LoadError
  | [] => (st, none)
  | row :: rest =>
    match loadRow st row with
    | (st2, some e) => (st2, some e)
    | (st2, none) => loadRows st2 rest

/-- A Python list comprehension over a fallible element computation:
evaluate left to right, abandoning the whole list at the first failure. -/
def mapAll {α β : Type} (f : α → Option β) : List α → Option (List β)
  | [] => some []
  | a :: l =>
    match f a with
    | Option.none => none
    | Option.some b =>
      match mapAll f l with
      | Option.none => none
      | Option.some bs => some (b :: bs)

/-- The timestamp conversion of `ResultsWindow.loadFile` (grapher.py:370-376):
first try `fromtimestamp(float(t))` on every entry; if that comprehension
raises `ValueError`, try `strptime(t, DATE_FORMAT)` on every entry; if that
also raises, the entries stay as raw strings and the error propagates
(`formatError`). -/
def convertTimes (ts : List TimeVal) : List TimeVal × Option LoadError :=
  match mapAll (fun t => parseFloat (rawStr t)) ts with
  | Option.some fs =>
    (fs.map (fun f => TimeVal.dt (PyDateTime.fromEpoch f)), none)
  | Option.none =>
    match mapAll (fun t => parseStrptime (rawStr t)) ts with
    | Option.some cs =>
      (cs.map (fun c => TimeVal.dt (PyDateTime.fromCalendar c)), none)
    | Option.none => (ts, some LoadError.formatError)

/-- The parsing phase of `ResultsWindow.loadFile` (grapher.py:352-379),
applied to the data rows of the CSV (the header row is consumed by
`reader.next()` before the loop).  The four sequences are reset to empty
before the loop (grapher.py:356-359), so the previously loaded data
`_prev` is discarded whether or not the load succeeds. -/
def loadFile (_prev : DataState) (rows : List (List String)) :
    DataState × Option LoadError :=
  let init : DataState := ⟨[], [], [], []⟩
  match loadRows init rows with
  | (st, some e) => (st, some e)
  | (st, none) =>
    match convertTimes st.times with
    | (ts, some e) => ({ st with times := ts }, some e)
    | (ts, none) => ({ st with times := ts }, none)

/-- `filterMap` only depends on the pointwise behavior of its function. -/
theorem filterMap_ext {α β : Type} {f g : α → Option β} (h : ∀ a, f a = g a) :
    ∀ l : List α, l.filterMap f = l.filterMap g := by
  intro l
  induction l with
  | nil => rfl
  | cons a t ih => simp only [List.filterMap_cons, h a, ih]

/-- `filterMap` only depends on the function on members of the list. -/
theorem filterMap_ext_mem {α β : Type} {f g : α → Option β} :
    ∀ l : List α, (∀ a ∈ l, f a = g a) → l.filterMap f = l.filterMap g := by
  intro l
  induction l with
  | nil => intro _; rfl
  | cons a t ih =>
    intro h
    simp only [List.filterMap_cons, h a (by simp)]
    rw [ih (fun x hx => h x (by simp [hx]))]

/-- If no position in the remaining input is one short of a multiple of
`dur`, the loop draws nothing. -/
theorem showAnomaliesGo_no_trigger (dur : ℕ) (times : List ℚ) :
    ∀ (xs : List ℚ) (count : ℕ) (asum start : ℚ) (acc : List Span),
      (∀ j, j < xs.length → (count + j + 1) % dur ≠ 0) →
      showAnomaliesGo dur times xs count asum start acc = acc := by
  intro xs
  induction xs with
  | nil => intro count asum start acc _; rfl
  | cons a rest ih =>
    intro count asum start acc h
    have h0 : (count + 1) % dur ≠ 0 := by
      have := h 0 (by simp)
      simpa using this
    rw [showAnomaliesGo, if_neg h0]
    exact ih (count + 1) _ start acc (fun j hj => by
      have := h (j + 1) (by simpa using Nat.succ_lt_succ hj)
      have he : count + 1 + j + 1 = count + (j + 1) + 1 := by omega
      rw [he]
      exact this)

/-- Processing the last `xs.length` samples of the current bucket (the
bucket is the `b`-th, 0-indexed): the loop accumulates the sum, emits at
most one span at the bucket boundary, and continues on `rest` with the sum
reset and the start moved to the last sample of this bucket. -/
theorem showAnomaliesGo_bucket (dur : ℕ) (hd : 0 < dur) (times : List ℚ) :
    ∀ (xs rest : List ℚ) (b : ℕ) (asum start : ℚ) (acc : List Span),
      xs ≠ [] → xs.length ≤ dur →
      showAnomaliesGo dur times (xs ++ rest) (b * dur + (dur - xs.length))
          asum start acc =
        showAnomaliesGo dur times rest ((b + 1) * dur) 0
          (times.getD ((b + 1) * dur - 1) 0)
          (acc ++ (if classify dur (asum + xs.sum) = Tier.none then []
                   else [(start, dur, classify dur (asum + xs.sum))])) := by
  intro xs
  induction xs with
  | nil => intro rest b asum start acc hne _; exact absurd rfl hne
  | cons a tail ih =>
    intro rest b asum start acc _ hlen
    cases tail with
    | nil =>
      have hmul : (b + 1) * dur = b * dur + dur := by ring
      have hc : (b * dur + (dur - [a].length) + 1) % dur = 0 := by
        have he : b * dur + (dur - [a].length) + 1 = (b + 1) * dur := by
          simp only [List.length_cons, List.length_nil]
          omega
        rw [he]
        exact Nat.mul_mod_left _ _
      rw [List.cons_append, List.nil_append, showAnomaliesGo]
      simp only [List.length_cons, List.length_nil] at hc ⊢
      rw [if_pos hc]
      have hcnt : b * dur + (dur - (0 + 1)) + 1 = (b + 1) * dur := by omega
      have hidx : b * dur + (dur - (0 + 1)) = (b + 1) * dur - 1 := by omega
      rw [hcnt, hidx]
      have hsum : asum + [a].sum = asum + a := by simp
      rw [← hsum]
      by_cases hnone : classify dur (asum + [a].sum) = Tier.none
      · rw [if_pos hnone, if_pos hnone, List.append_nil]
      · rw [if_neg hnone, if_neg hnone]
    | cons a2 tail2 =>
      have hlen2 : (a2 :: tail2).length ≤ dur := by
        simp only [List.length_cons] at hlen ⊢
        omega
      have hne2 : (a2 :: tail2) ≠ [] := by simp
      have hnt : (b * dur + (dur - (a :: a2 :: tail2).length) + 1) % dur ≠ 0 := by
        simp only [List.length_cons]
        have h1 : b * dur + (dur - (tail2.length + 1 + 1)) + 1 =
            (dur - (tail2.length + 1 + 1) + 1) + b * dur := by omega
        rw [h1, Nat.add_mul_mod_self_right]
        have h2 : dur - (tail2.length + 1 + 1) + 1 < dur := by
          simp only [List.length_cons] at hlen
          omega
        rw [Nat.mod_eq_of_lt h2]
        omega
      rw [List.cons_append, showAnomaliesGo]
      rw [if_neg hnt]
      have hcnt : b * dur + (dur - (a :: a2 :: tail2).length) + 1 =
          b * dur + (dur - (a2 :: tail2).length) := by
        simp only [List.length_cons] at hlen ⊢
        omega
      rw [hcnt]
      rw [ih rest b (asum + a) start acc hne2 hlen2]
      have hsum : asum + a + (a2 :: tail2).sum = asum + (a :: a2 :: tail2).sum := by
        simp only [List.sum_cons]
        ring
      rw [hsum]

/-- Full characterization of the banding loop: starting at the `b`-th bucket
boundary with a zero running sum, the loop appends, for every complete
bucket of the remaining input whose tier is not `none`, one span whose start
is the incoming `start` for the first bucket and the time of the last sample
of the previous bucket for every later one. -/
theorem showAnomaliesGo_spec (dur : ℕ) (hd : 0 < dur) (times : List ℚ) :
    ∀ (m : ℕ) (a : List ℚ), a.length / dur = m →
      ∀ (b : ℕ) (start : ℚ) (acc : List Span),
      showAnomaliesGo dur times a (b * dur) 0 start acc =
        acc ++ (List.range m).filterMap (fun k =>
          let tier := classify dur (bucketSum dur a k)
          if tier = Tier.none then none
          else some ((if k = 0 then start
                      else times.getD ((b + k) * dur - 1) 0), dur, tier)) := by
  intro m
  induction m with
  | zero =>
    intro a ha b start acc
    have hlen : a.length < dur := (Nat.div_eq_zero_iff hd).mp ha
    rw [List.range_zero, List.filterMap_nil, List.append_nil]
    apply showAnomaliesGo_no_trigger
    intro j hj
    have h1 : b * dur + j + 1 = (j + 1) + b * dur := by omega
    rw [h1, Nat.add_mul_mod_self_right]
    have h2 : j + 1 < dur := by omega
    rw [Nat.mod_eq_of_lt h2]
    omega
  | succ m ih =>
    intro a ha b start acc
    have hge : dur ≤ a.length := by
      by_contra hcon
      push_neg at hcon
      rw [Nat.div_eq_of_lt hcon] at ha
      exact Nat.succ_ne_zero m ha.symm
    have hsplit : a = a.take dur ++ a.drop dur := (List.take_append_drop dur a).symm
    have hx : (a.take dur).length = dur := by
      rw [List.length_take]
      omega
    have hxne : a.take dur ≠ [] := by
      intro hcon
      rw [hcon] at hx
      simp at hx
      omega
    have hrest : (a.drop dur).length / dur = m := by
      rw [List.length_drop]
      have h1 := Nat.div_eq_sub_div hd hge
      rw [ha] at h1
      exact (Nat.succ_injective h1).symm
    conv_lhs => rw [hsplit]
    have hb : b * dur = b * dur + (dur - (a.take dur).length) := by
      rw [hx]
      omega
    rw [hb]
    rw [showAnomaliesGo_bucket dur hd times (a.take dur) (a.drop dur) b 0 start acc
      hxne (le_of_eq hx)]
    rw [ih (a.drop dur) hrest (b + 1) (times.getD ((b + 1) * dur - 1) 0) _]
    rw [List.append_assoc]
    congr 1
    have hsum0 : bucketSum dur a 0 = (a.take dur).sum := by
      rw [bucketSum, Nat.zero_mul, List.drop_zero]
    have hbk : ∀ k, bucketSum dur (a.drop dur) k = bucketSum dur a (k + 1) := by
      intro k
      have he : dur + k * dur = (k + 1) * dur := by ring
      rw [bucketSum, bucketSum, List.drop_drop, he]
    have htail : (List.filterMap (fun k =>
          let tier := classify dur (bucketSum dur a k)
          if tier = Tier.none then none
          else some ((if k = 0 then start
                      else times.getD ((b + k) * dur - 1) 0), dur, tier))
          ((List.range m).map Nat.succ)) =
        List.filterMap (fun k =>
          let tier := classify dur (bucketSum dur (a.drop dur) k)
          if tier = Tier.none then none
          else some ((if k = 0 then times.getD ((b + 1) * dur - 1) 0
                      else times.getD ((b + 1 + k) * dur - 1) 0), dur, tier))
          (List.range m) := by
      rw [List.filterMap_map]
      apply filterMap_ext
      intro k
      simp only [Function.comp_apply, Nat.succ_eq_add_one, hbk k]
      have hks : k + 1 ≠ 0 := Nat.succ_ne_zero k
      by_cases hk : k = 0
      · subst hk
        simp only [hks, if_false, if_pos rfl]
        norm_num
      · simp only [hks, if_false, if_neg hk]
        have he2 : (b + (k + 1)) * dur = (b + 1 + k) * dur := by ring
        rw [he2]
    rw [List.range_succ_eq_map]
    rw [zero_add ((a.take dur).sum)]
    by_cases hnone : classify dur ((a.take dur).sum) = Tier.none
    · have hg0 : classify dur (bucketSum dur a 0) = Tier.none := by
        rw [hsum0]
        exact hnone
      rw [if_pos hnone, List.nil_append]
      rw [List.filterMap_cons_none (by simp [hg0])]
      exact htail.symm
    · have hg0 : classify dur (bucketSum dur a 0) ≠ Tier.none := by
        rw [hsum0]
        exact hnone
      rw [if_neg hnone]
      rw [List.filterMap_cons_some (b := (start, dur, classify dur ((a.take dur).sum)))
        (by simp [hsum0, hnone])]
      rw [List.singleton_append]
      rw [htail]

/-- `showAnomalies` with a positive duration equals the bucket-wise
specification `spansSpec`, on any previous span state. -/
theorem showAnomalies_eq_spansSpec (dur : ℕ) (hd : 0 < dur)
    (anomalies times : List ℚ) (prev : List Span) :
    showAnomalies dur anomalies times prev = spansSpec dur anomalies times := by
  rw [showAnomalies, if_pos hd]
  have h := showAnomaliesGo_spec dur hd times (anomalies.length / dur) anomalies rfl
    0 (times.getD 0 0) []
  rw [Nat.zero_mul] at h
  rw [h, List.nil_append, spansSpec]
  apply filterMap_ext
  intro k
  by_cases hk : k = 0
  · subst hk
    simp [bucketStart]
  · simp only [bucketStart, if_neg hk, Nat.zero_add]

/-- The threshold chain of `classify` written with the thresholds of the
specification, `2*d/3` and `d/3`. -/
theorem classify_cases (d : ℕ) (s : ℚ) :
    classify d s = (if 2 * (d : ℚ) / 3 < s then Tier.high
      else if (d : ℚ) / 3 < s then Tier.medium
      else if 0 < s then Tier.low else Tier.none) := by
  have h : (d : ℚ) / 3 * 2 = 2 * (d : ℚ) / 3 := by ring
  simp only [classify]
  rw [h]

/-- A bucket classifies as `none` exactly when its sum is not positive. -/
theorem classify_eq_none_iff (d : ℕ) (s : ℚ) :
    classify d s = Tier.none ↔ s ≤ 0 := by
  have hd3 : (0 : ℚ) ≤ (d : ℚ) / 3 := by positivity
  rw [classify_cases]
  split_ifs with h1 h2 h3
  · constructor
    · intro hc
      exact absurd hc (by decide)
    · intro hs
      exfalso
      linarith
  · constructor
    · intro hc
      exact absurd hc (by decide)
    · intro hs
      exfalso
      linarith
  · constructor
    · intro hc
      exact absurd hc (by decide)
    · intro hs
      exfalso
      linarith
  · exact iff_of_true rfl (not_lt.mp h3)

/-- The bucket sums over the first `m` complete buckets add up to the sum of
the covered prefix of the input. -/
theorem sum_bucketSums (d : ℕ) (a : List ℚ) :
    ∀ m : ℕ, ((List.range m).map (fun k => bucketSum d a k)).sum =
      (a.take (m * d)).sum := by
  intro m
  induction m with
  | zero => simp
  | succ m ih =>
    rw [List.range_succ, List.map_append, List.sum_append]
    simp only [List.map_cons, List.map_nil, List.sum_cons, List.sum_nil]
    rw [ih]
    have hsplit : a.take ((m + 1) * d) = a.take (m * d) ++ (a.drop (m * d)).take d := by
      have he : (m + 1) * d = m * d + d := by ring
      rw [he, List.take_add]
    rw [hsplit, List.sum_append, bucketSum]
    ring

/-- A sum of 0/1 flags counts the 1 entries. -/
theorem sum_eq_count_one (l : List ℚ) (h : ∀ x ∈ l, x = 0 ∨ x = 1) :
    l.sum = (l.count 1 : ℚ) := by
  induction l with
  | nil => simp
  | cons a t ih =>
    have ht := ih (fun x hx => h x (by simp [hx]))
    rcases h a (by simp) with h0 | h1
    · subst h0
      rw [List.sum_cons, ht, List.count_cons]
      norm_num
    · subst h1
      rw [List.sum_cons, ht, List.count_cons]
      push_cast
      norm_num
      ring

/-- The number of spans drawn equals the number of complete buckets with a
positive anomaly sum. -/
theorem spansSpec_length (d : ℕ) (anomalies times : List ℚ) :
    (spansSpec d anomalies times).length =
      ((List.range (anomalies.length / d)).filter
        (fun k => decide (0 < bucketSum d anomalies k))).length := by
  unfold spansSpec
  generalize List.range (anomalies.length / d) = l
  induction l with
  | nil => rfl
  | cons k t ih =>
    rw [List.filterMap_cons, List.filter_cons]
    by_cases hk : classify d (bucketSum d anomalies k) = Tier.none
    · have hnp : ¬ (0 < bucketSum d anomalies k) := by
        rw [classify_eq_none_iff] at hk
        exact not_lt.mpr hk
      simp [hk, hnp, ih]
    · have hp : 0 < bucketSum d anomalies k := by
        by_contra hc
        push_neg at hc
        exact hk ((classify_eq_none_iff d _).mpr hc)
      simp [hk, hp, ih]

/-- Bucket sums only look at the covered prefix of the input. -/
theorem bucketSum_take (d : ℕ) (a : List ℚ) (m k : ℕ) (hk : k < m) :
    bucketSum d (a.take (m * d)) k = bucketSum d a k := by
  have hmin : min d (m * d - k * d) = d := by
    have hle : (k + 1) * d ≤ m * d := Nat.mul_le_mul_right d hk
    have he : (k + 1) * d = k * d + d := by ring
    omega
  unfold bucketSum
  rw [List.drop_take, List.take_take, hmin]

/-- In a strictly ascending list the head is a lower bound. -/
theorem sorted_head_le (l : List ℚ) (hl : l ≠ []) (hs : l.Pairwise (· < ·)) :
    ∀ x ∈ l, l.head hl ≤ x := by
  cases l with
  | nil => exact absurd rfl hl
  | cons a t =>
    intro x hx
    rw [List.head_cons]
    rcases List.mem_cons.mp hx with h | h
    · exact le_of_eq h.symm
    · exact le_of_lt ((List.pairwise_cons.mp hs).1 x h)

/-- In a strictly ascending list the last element is an upper bound. -/
theorem sorted_le_getLast :
    ∀ (l : List ℚ) (hl : l ≠ []), l.Pairwise (· < ·) →
      ∀ x ∈ l, x ≤ l.getLast hl := by
  intro l
  induction l with
  | nil => intro hl; exact absurd rfl hl
  | cons a t ih =>
    intro hl hs x hx
    cases t with
    | nil =>
      rcases List.mem_cons.mp hx with h | h
      · rw [List.getLast_singleton]
        exact le_of_eq h
      · cases h
    | cons b t2 =>
      rw [List.getLast_cons (List.cons_ne_nil b t2)]
      rcases List.mem_cons.mp hx with h | h
      · have hmem : (b :: t2).getLast (List.cons_ne_nil b t2) ∈ b :: t2 :=
          List.getLast_mem _
        rw [h]
        exact le_of_lt ((List.pairwise_cons.mp hs).1 _ hmem)
      · exact ih (List.cons_ne_nil b t2) (List.pairwise_cons.mp hs).2 x h

/-- In a strictly ascending list, Python `list.index` finds the last element
at the last position. -/
theorem indexOf_getLast_sorted :
    ∀ (l : List ℚ) (hl : l ≠ []), l.Pairwise (· < ·) →
      l.indexOf (l.getLast hl) = l.length - 1 := by
  intro l
  induction l with
  | nil => intro hl; exact absurd rfl hl
  | cons a t ih =>
    intro _ hs
    cases t with
    | nil => simp
    | cons b t2 =>
      rw [List.getLast_cons (List.cons_ne_nil b t2)]
      have hmem : (b :: t2).getLast (List.cons_ne_nil b t2) ∈ b :: t2 :=
        List.getLast_mem _
      have hane : a ≠ (b :: t2).getLast (List.cons_ne_nil b t2) :=
        ne_of_lt ((List.pairwise_cons.mp hs).1 _ hmem)
      rw [List.indexOf_cons_ne _ hane]
      rw [ih (List.cons_ne_nil b t2) (List.pairwise_cons.mp hs).2]
      simp only [List.length_cons]
      omega

/-- C5: on a loaded dataset with strictly ascending timestamps and matching
sequence lengths, range-filtering from the first timestamp to strictly
beyond the last returns the times, target and prediction sequences
unchanged. -/
theorem rangeFilter_full_range_id (times target predict : List ℚ)
    (hne : times ≠ []) (hsorted : times.Pairwise (· < ·))
    (hlt : target.length = times.length) (hlp : predict.length = times.length)
    (e : ℚ) (he : times.getLast hne < e) :
    rangeFilter times target predict (times.head hne) e =
      some (times, target, predict) := by
  have hfilter : times.filter
      (fun i => decide (times.head hne ≤ i) && decide (i < e)) = times := by
    apply List.filter_eq_self.mpr
    intro x hx
    rw [Bool.and_eq_true, decide_eq_true_iff, decide_eq_true_iff]
    exact ⟨sorted_head_le times hne hsorted x hx,
      lt_of_le_of_lt (sorted_le_getLast times hne hsorted x hx) he⟩
  cases times with
  | nil => exact absurd rfl hne
  | cons t0 tl =>
    rw [List.head_cons] at hfilter ⊢
    rw [rangeFilter, hfilter]
    have hi0 : (t0 :: tl).indexOf t0 = 0 := List.indexOf_cons_self t0 tl
    have hi1 : (t0 :: tl).indexOf ((t0 :: tl).getLast (List.cons_ne_nil t0 tl)) =
        (t0 :: tl).length - 1 :=
      indexOf_getLast_sorted (t0 :: tl) (List.cons_ne_nil t0 tl) hsorted
    simp only [hi0, hi1]
    have hlen : (t0 :: tl).length - 1 + 1 = (t0 :: tl).length := by
      simp only [List.length_cons]
      omega
    have htake1 : target.take ((t0 :: tl).length) = target := by
      rw [← hlt]
      exact List.take_length target
    have htake2 : predict.take ((t0 :: tl).length) = predict := by
      rw [← hlp]
      exact List.take_length predict
    rw [hlen, htake1, htake2, List.drop_zero, List.drop_zero]

/-- Witness for C5 on the dataset times `[1,2]`, target `[10,20]`, predict
`[30,40]` with range `[1, 3)`. -/
theorem rangeFilter_full_range_id_witness :
    rangeFilter [1, 2] [10, 20] [30, 40] ([(1 : ℚ), 2].head (by decide)) 3 =
      some ([1, 2], [10, 20], [30, 40]) :=
  rangeFilter_full_range_id [1, 2] [10, 20] [30, 40] (by decide) (by decide)
    rfl rfl 3 (by decide)

/-- C1: for every anomaly sequence and positive bucket duration `d`, anomaly
banding partitions the input into consecutive complete buckets of exactly
`d` samples, sums the flags in each complete bucket, and assigns tier
`high` when the sum exceeds `2*d/3`, `medium` when it exceeds `d/3`, `low`
when it exceeds 0, and `none` otherwise (no span drawn); in particular on
`[0,0,1,1,1,0]` with `d = 3` the first bucket has sum 1 and tier `low` and
the second has sum 2 and tier `medium`. -/
theorem showAnomalies_bucket_tiers (d : ℕ) (hd : 0 < d)
    (anomalies times : List ℚ) (prev : List Span) :
    ((showAnomalies d anomalies times prev).map Prod.snd =
      (List.range (anomalies.length / d)).filterMap (fun k =>
        if 2 * (d : ℚ) / 3 < bucketSum d anomalies k then some (d, Tier.high)
        else if (d : ℚ) / 3 < bucketSum d anomalies k then some (d, Tier.medium)
        else if 0 < bucketSum d anomalies k then some (d, Tier.low)
        else none))
    ∧ showAnomalies 3 [0, 0, 1, 1, 1, 0] [0, 1, 2, 3, 4, 5] prev =
        [(0, 3, Tier.low), (2, 3, Tier.medium)]
    ∧ bucketSum 3 [0, 0, 1, 1, 1, 0] 0 = 1
    ∧ bucketSum 3 [0, 0, 1, 1, 1, 0] 1 = 2 := by
  refine ⟨?_, ?_, ?_, ?_⟩
  · rw [showAnomalies_eq_spansSpec d hd, spansSpec, List.map_filterMap]
    apply filterMap_ext
    intro k
    rw [classify_cases]
    by_cases h1 : 2 * (d : ℚ) / 3 < bucketSum d anomalies k
    · simp [h1]
    · by_cases h2 : (d : ℚ) / 3 < bucketSum d anomalies k
      · simp [h1, h2]
      · by_cases h3 : 0 < bucketSum d anomalies k
        · simp [h1, h2, h3]
        · simp [h1, h2, h3]
  · norm_num [showAnomalies, showAnomaliesGo, classify]
    decide
  · norm_num [bucketSum]
  · norm_num [bucketSum]

/-- Witness for C1 at the concrete example of the claim. -/
theorem showAnomalies_bucket_tiers_witness :
    showAnomalies 3 [0, 0, 1, 1, 1, 0] [0, 1, 2, 3, 4, 5] [] =
      [(0, 3, Tier.low), (2, 3, Tier.medium)] :=
  (showAnomalies_bucket_tiers 3 (by norm_num) [0, 0, 1, 1, 1, 0]
    [0, 1, 2, 3, 4, 5] []).2.1

/-- C2: the sum of the per-bucket anomaly counts over all complete buckets
equals the number of 1-valued flags in the first `(n/d)*d` input elements;
the per-bucket counts are exactly the sums the banding loop classifies
(second conjunct, via `spansSpec`). -/
theorem banding_counts_sum (d : ℕ) (hd : 0 < d) (anomalies : List ℚ)
    (hflags : ∀ x ∈ anomalies, x = 0 ∨ x = 1) :
    ((List.range (anomalies.length / d)).map
        (fun k => bucketSum d anomalies k)).sum =
      ((anomalies.take (anomalies.length / d * d)).count 1 : ℚ)
    ∧ ∀ times prev, showAnomalies d anomalies times prev =
        spansSpec d anomalies times := by
  constructor
  · rw [sum_bucketSums]
    exact sum_eq_count_one _ (fun x hx => hflags x (List.mem_of_mem_take hx))
  · intro times prev
    exact showAnomalies_eq_spansSpec d hd anomalies times prev

/-- Witness for C2 on the example sequence: both complete buckets together
hold three 1-flags. -/
theorem banding_counts_sum_witness :
    ((List.range ([(0 : ℚ), 0, 1, 1, 1, 0].length / 3)).map
        (fun k => bucketSum 3 [0, 0, 1, 1, 1, 0] k)).sum =
      (([(0 : ℚ), 0, 1, 1, 1, 0].take
        ([(0 : ℚ), 0, 1, 1, 1, 0].length / 3 * 3)).count 1 : ℚ) :=
  (banding_counts_sum 3 (by norm_num) [0, 0, 1, 1, 1, 0] (by decide)).1

/-- C7 counterexample: with `d = 3` and anomalies `[0,0,0]` there is exactly
one complete bucket, yet `showAnomalies` produces no record: a zero-sum
bucket draws no span, so banding does not produce one record per complete
bucket. -/
theorem showAnomalies_zero_bucket_no_record :
    showAnomalies 3 [0, 0, 0] [0, 1, 2] [] = []
    ∧ [(0 : ℚ), 0, 0].length / 3 = 1 := by
  constructor
  · norm_num [showAnomalies, showAnomaliesGo, classify]
  · rfl

/-- C7 amended: banding produces exactly one `(start, duration, tier)`
record per complete bucket whose anomaly sum is positive and none for the
other complete buckets, and the trailing partial bucket (input beyond the
first `(n/d)*d` samples) contributes no record. -/
theorem showAnomalies_positive_buckets (d : ℕ) (hd : 0 < d)
    (anomalies times : List ℚ) (prev : List Span) :
    (showAnomalies d anomalies times prev).length =
      ((List.range (anomalies.length / d)).filter
        (fun k => decide (0 < bucketSum d anomalies k))).length
    ∧ showAnomalies d anomalies times prev =
        showAnomalies d (anomalies.take (anomalies.length / d * d)) times prev := by
  constructor
  · rw [showAnomalies_eq_spansSpec d hd, spansSpec_length]
  · rw [showAnomalies_eq_spansSpec d hd, showAnomalies_eq_spansSpec d hd]
    unfold spansSpec
    have hlen : (anomalies.take (anomalies.length / d * d)).length / d =
        anomalies.length / d := by
      rw [List.length_take]
      have h1 : anomalies.length / d * d ≤ anomalies.length :=
        Nat.div_mul_le_self _ _
      rw [min_eq_left h1]
      exact Nat.mul_div_left _ hd
    rw [hlen]
    apply filterMap_ext_mem
    intro k hk
    rw [List.mem_range] at hk
    rw [bucketSum_take d anomalies (anomalies.length / d) k hk]

/-- Witness for the amended C7 on a sequence with a trailing partial
bucket. -/
theorem showAnomalies_positive_buckets_witness :
    (showAnomalies 3 [0, 0, 1, 1, 1, 0, 1] [0, 1, 2, 3, 4, 5, 6] []).length =
      ((List.range ([(0 : ℚ), 0, 1, 1, 1, 0, 1].length / 3)).filter
        (fun k => decide (0 < bucketSum 3 [0, 0, 1, 1, 1, 0, 1] k))).length
    ∧ showAnomalies 3 [0, 0, 1, 1, 1, 0, 1] [0, 1, 2, 3, 4, 5, 6] [] =
        showAnomalies 3 ([(0 : ℚ), 0, 1, 1, 1, 0, 1].take
          ([(0 : ℚ), 0, 1, 1, 1, 0, 1].length / 3 * 3)) [0, 1, 2, 3, 4, 5, 6] [] :=
  showAnomalies_positive_buckets 3 (by norm_num) [0, 0, 1, 1, 1, 0, 1]
    [0, 1, 2, 3, 4, 5, 6] []

/-- C9: the start time recorded for the first bucket is `times[0]`, and for
every later bucket `k` (0-indexed, `k >= 1`) it is `times[k*d - 1]`, the
time of the last sample of the previous bucket, not the time of the bucket's
own first sample `times[k*d]`; on `[1,1,1,1]` with `d = 2` and times
`[10,20,30,40]` the second span starts at 20, not 30. -/
theorem showAnomalies_bucket_starts (d : ℕ) (hd : 0 < d)
    (anomalies times : List ℚ) (prev : List Span) :
    (showAnomalies d anomalies times prev =
      (List.range (anomalies.length / d)).filterMap (fun k =>
        let tier := classify d (bucketSum d anomalies k)
        if tier = Tier.none then none
        else some ((if k = 0 then times.getD 0 0
                    else times.getD (k * d - 1) 0), d, tier)))
    ∧ showAnomalies 2 [1, 1, 1, 1] [10, 20, 30, 40] prev =
        [(10, 2, Tier.high), (20, 2, Tier.high)]
    ∧ [(10 : ℚ), 20, 30, 40].getD (1 * 2 - 1) 0 = 20
    ∧ [(10 : ℚ), 20, 30, 40].getD (1 * 2) 0 = 30
    ∧ (20 : ℚ) ≠ 30 := by
  refine ⟨?_, ?_, ?_, ?_, ?_⟩
  · rw [showAnomalies_eq_spansSpec d hd]
    rfl
  · norm_num [showAnomalies, showAnomaliesGo, classify]
    decide
  · rfl
  · rfl
  · norm_num

/-- Witness for C9: the second bucket's span starts at the last sample of
the first bucket. -/
theorem showAnomalies_bucket_starts_witness :
    showAnomalies 2 [1, 1, 1, 1] [10, 20, 30, 40] [] =
      [(10, 2, Tier.high), (20, 2, Tier.high)] :=
  (showAnomalies_bucket_starts 2 (by norm_num) [1, 1, 1, 1]
    [10, 20, 30, 40] []).2.1

/-- C3 (code defect): when no loaded timestamp lies in the selected range,
the comprehension does yield the empty list, but the redraw does not
complete without failure: `new_time[0]` (grapher.py:409) raises
`IndexError`, modelled by `rangeFilter` and hence `updateGraphSpans`
returning `none`.  Shown at the failing input times `[5]`, range
`[10, 20)`. -/
theorem updateGraph_empty_range_fails :
    [(5 : ℚ)].filter (fun i => decide ((10 : ℚ) ≤ i) && decide (i < 20)) = []
    ∧ rangeFilter [5] [1] [2] 10 20 = none
    ∧ updateGraphSpans ⟨[5], [1], [2], [0], 10, 20, true, 3⟩ [] = none := by
  refine ⟨?_, ?_, ?_⟩ <;> decide

/-- C8: an empty path, or one whose last four characters are not `.csv`, is
rejected by `checkFilename` with a status-bar message, and `loadFile`
attempts no file open. -/
theorem checkFilename_rejects (filename : String)
    (h : filename = "" ∨ pySuffix4 filename ≠ ".csv") :
    (checkFilename filename).1 = false
    ∧ (checkFilename filename).2.isSome = true
    ∧ loadFileWouldOpen filename = false := by
  have hcf : (checkFilename filename).1 = false
      ∧ (checkFilename filename).2.isSome = true := by
    rcases h with h | h
    · subst h
      constructor <;> rfl
    · rw [checkFilename]
      by_cases h0 : filename = ""
      · rw [if_pos h0]
        constructor <;> rfl
      · rw [if_neg h0, if_pos h]
        constructor <;> rfl
  refine ⟨hcf.1, hcf.2, ?_⟩
  rw [loadFileWouldOpen, hcf.1]

/-- Witness for C8 at the path `data` of the claim. -/
theorem checkFilename_rejects_witness :
    (checkFilename "data").1 = false
    ∧ (checkFilename "data").2.isSome = true
    ∧ loadFileWouldOpen "data" = false :=
  checkFilename_rejects "data" (Or.inr (by decide))

/-- C10: banding reads the full loaded anomaly and time sequences, not the
range-filtered ones: two completed redraws of the same loaded dataset that
differ only in the selected start/end range draw the same spans. -/
theorem updateGraph_spans_range_independent (st1 st2 : GrapherState)
    (prev : List Span)
    (htimes : st1.times = st2.times) (htarget : st1.target = st2.target)
    (hpredict : st1.predict = st2.predict)
    (hanom : st1.anomalies = st2.anomalies)
    (hcheck : st1.anomaly_checked = st2.anomaly_checked)
    (hdur : st1.anomaly_dur = st2.anomaly_dur)
    (s1 s2 : List Span)
    (h1 : updateGraphSpans st1 prev = some s1)
    (h2 : updateGraphSpans st2 prev = some s2) :
    s1 = s2 := by
  unfold updateGraphSpans at h1 h2
  cases hr1 : rangeFilter st1.times st1.target st1.predict st1.start_date
      st1.end_date with
  | none =>
    rw [hr1] at h1
    cases h1
  | some v1 =>
    cases hr2 : rangeFilter st2.times st2.target st2.predict st2.start_date
        st2.end_date with
    | none =>
      rw [hr2] at h2
      cases h2
    | some v2 =>
      rw [hr1, Option.some_bind] at h1
      rw [hr2, Option.some_bind] at h2
      rw [htimes, hanom, hcheck, hdur] at h1
      exact Option.some.inj (h1.symm.trans h2)

/-- Witness for C10: the same dataset redrawn with ranges `[1, 5)` and
`[2, 4)` draws the same two spans. -/
theorem updateGraph_spans_range_independent_witness :
    updateGraphSpans
        ⟨[1, 2, 3, 4], [5, 5, 5, 5], [6, 6, 6, 6], [1, 1, 1, 1], 1, 5, true, 2⟩ [] =
      updateGraphSpans
        ⟨[1, 2, 3, 4], [5, 5, 5, 5], [6, 6, 6, 6], [1, 1, 1, 1], 2, 4, true, 2⟩ [] := by
  have hr1 : rangeFilter [1, 2, 3, 4] [5, 5, 5, 5] [6, 6, 6, 6] 1 5 =
      some ([1, 2, 3, 4], [5, 5, 5, 5], [6, 6, 6, 6]) := by decide
  have hr2 : rangeFilter [1, 2, 3, 4] [5, 5, 5, 5] [6, 6, 6, 6] 2 4 =
      some ([2, 3], [5, 5], [6, 6]) := by decide
  have hsa : showAnomalies 2 [1, 1, 1, 1] [1, 2, 3, 4] [] =
      [(1, 2, Tier.high), (2, 2, Tier.high)] := by
    norm_num [showAnomalies, showAnomaliesGo, classify]
    decide
  have h1 : updateGraphSpans
      ⟨[1, 2, 3, 4], [5, 5, 5, 5], [6, 6, 6, 6], [1, 1, 1, 1], 1, 5, true, 2⟩ [] =
      some [(1, 2, Tier.high), (2, 2, Tier.high)] := by
    rw [updateGraphSpans]
    rw [show (⟨[1, 2, 3, 4], [5, 5, 5, 5], [6, 6, 6, 6], [1, 1, 1, 1], 1, 5,
      true, 2⟩ : GrapherState).times = [1, 2, 3, 4] from rfl]
    rw [hr1, Option.some_bind, if_pos rfl, hsa]
  have h2 : updateGraphSpans
      ⟨[1, 2, 3, 4], [5, 5, 5, 5], [6, 6, 6, 6], [1, 1, 1, 1], 2, 4, true, 2⟩ [] =
      some [(1, 2, Tier.high), (2, 2, Tier.high)] := by
    rw [updateGraphSpans]
    rw [show (⟨[1, 2, 3, 4], [5, 5, 5, 5], [6, 6, 6, 6], [1, 1, 1, 1], 2, 4,
      true, 2⟩ : GrapherState).times = [1, 2, 3, 4] from rfl]
    rw [hr2, Option.some_bind, if_pos rfl, hsa]
  have h12 := updateGraph_spans_range_independent _ _ []
    rfl rfl rfl rfl rfl rfl _ _ h1 h2
  rw [h1, h2]

/-- A comprehension fails exactly when some element computation fails. -/
theorem mapAll_eq_none_iff {α β : Type} (f : α → Option β) :
    ∀ l : List α, mapAll f l = none ↔ ∃ a ∈ l, f a = none := by
  intro l
  induction l with
  | nil => simp [mapAll]
  | cons a t ih =>
    cases hf : f a with
    | none =>
      constructor
      · intro _
        exact ⟨a, by simp, hf⟩
      · intro _
        simp [mapAll, hf]
    | some b =>
      cases hm : mapAll f t with
      | none =>
        constructor
        · intro _
          obtain ⟨x, hx, hfx⟩ := ih.mp hm
          exact ⟨x, by simp [hx], hfx⟩
        · intro _
          simp [mapAll, hf, hm]
      | some bs =>
        constructor
        · intro hcon
          rw [mapAll, hf, hm] at hcon
          cases hcon
        · rintro ⟨x, hx, hfx⟩
          rcases List.mem_cons.mp hx with h | h
          · rw [h, hf] at hfx
            cases hfx
          · have hn := ih.mpr ⟨x, h, hfx⟩
            rw [hm] at hn
            cases hn

/-- C4 counterexample (claim as stated is false): loading the data row
`1464763755,abc,9683,0` over a previously loaded dataset does fail with a
ParseError (`float` raises `ValueError` on `abc`), but partial data IS
exposed: the loaded sequences were cleared before parsing and `times` now
holds the raw first column of the failed row, so the previously loaded
sequences are changed by the failed load. -/
theorem loadFile_partial_exposure_ce :
    (loadFile ⟨[TimeVal.dt (PyDateTime.fromEpoch 1464000000)], [9000], [9100], [0]⟩
      [["1464763755", "abc", "9683", "0"]]).2 = some LoadError.parseError
    ∧ (loadFile ⟨[TimeVal.dt (PyDateTime.fromEpoch 1464000000)], [9000], [9100], [0]⟩
      [["1464763755", "abc", "9683", "0"]]).1.times = [TimeVal.raw "1464763755"]
    ∧ (loadFile ⟨[TimeVal.dt (PyDateTime.fromEpoch 1464000000)], [9000], [9100], [0]⟩
      [["1464763755", "abc", "9683", "0"]]).1 ≠
      ⟨[TimeVal.dt (PyDateTime.fromEpoch 1464000000)], [9000], [9100], [0]⟩ := by
  refine ⟨?_, ?_, ?_⟩ <;> decide

/-- C4 amended: loading a CSV whose first data row has a non-numeric target
field fails with a ParseError, and the previously loaded sequences are not
preserved: the state after the failure is the partially parsed data, with
`times` holding the raw first column of the failed row and the other
sequences empty. -/
theorem loadFile_parseError_partial (prev : DataState)
    (t tgt p a : String) (rest : List (List String))
    (ht : parseFloat tgt = none) :
    loadFile prev ([t, tgt, p, a] :: rest) =
      (⟨[TimeVal.raw t], [], [], []⟩, some LoadError.parseError) := by
  rw [loadFile, loadRows, loadRow]
  simp only [List.get?, ht, List.nil_append]

/-- Witness for the amended C4 at the row of the claim. -/
theorem loadFile_parseError_partial_witness :
    loadFile ⟨[TimeVal.dt (PyDateTime.fromEpoch 1464000000)], [9000], [9100], [0]⟩
      [["1464763755", "abc", "9683", "0"]] =
      (⟨[TimeVal.raw "1464763755"], [], [], []⟩, some LoadError.parseError) :=
  loadFile_parseError_partial _ "1464763755" "abc" "9683" "0" [] (by decide)

/-- C6: the timestamp conversion of the loader first tries to interpret
every first-column value as a float Unix epoch; when any value fails to
parse as a float (fourth conjunct) it parses every value with the fixed
textual format `YYYY-MM-DD HH:MM:SS` (`DATE_FORMAT` of param.py, modelled
by `parseStrptime`); and when both attempts fail the conversion fails with
a FormatError value, leaving the raw strings in place — the error is a
value handed back to the UI layer of the model, not a crash.  The last two
conjuncts show the two accepted formats on concrete values. -/
theorem convertTimes_cascade (ts : List TimeVal) :
    (∀ fs, mapAll (fun t => parseFloat (rawStr t)) ts = some fs →
      convertTimes ts =
        (fs.map (fun f => TimeVal.dt (PyDateTime.fromEpoch f)), none))
    ∧ (mapAll (fun t => parseFloat (rawStr t)) ts = none →
        ∀ cs, mapAll (fun t => parseStrptime (rawStr t)) ts = some cs →
          convertTimes ts =
            (cs.map (fun c => TimeVal.dt (PyDateTime.fromCalendar c)), none))
    ∧ (mapAll (fun t => parseFloat (rawStr t)) ts = none →
        mapAll (fun t => parseStrptime (rawStr t)) ts = none →
          convertTimes ts = (ts, some LoadError.formatError))
    ∧ (mapAll (fun t => parseFloat (rawStr t)) ts = none ↔
        ∃ t ∈ ts, parseFloat (rawStr t) = none)
    ∧ parseFloat "1464763755" = some 1464763755
    ∧ parseStrptime "2016-06-01 08:30:00" = some ⟨2016, 6, 1, 8, 30, 0⟩ := by
  refine ⟨?_, ?_, ?_, mapAll_eq_none_iff _ ts, ?_, by decide⟩
  · intro fs hfs
    rw [convertTimes, hfs]
  · intro hn cs hcs
    rw [convertTimes, hn, hcs]
  · intro hn1 hn2
    rw [convertTimes, hn1, hn2]
  · have h : scanFloat "1464763755" = some ⟨false, 1464763755, 0, 0, 0⟩ := by
      decide
    rw [parseFloat, h]
    norm_num [FloatRep.toRat]

/-- Witness for C6 on a value no format accepts. -/
theorem convertTimes_cascade_witness :
    convertTimes [TimeVal.raw "abc"] =
      ([TimeVal.raw "abc"], some LoadError.formatError) :=
  (convertTimes_cascade [TimeVal.raw "abc"]).2.2.1 (by decide) (by decide)

end Grapher
